import Mathlib

/-!
Verification of the `qspi` subcommand (src/cmd/qspi.rs): a shallow embedding
of the argument record, the structopt conflict/requires validation, the
function-catalog lookup, the operation builder, and the completion-polling
loop, together with theorems about the claims of the specification.
-/

namespace Qspi

deriving instance DecidableEq for Except

/-- The command-line arguments of the `qspi` subcommand (struct `QspiArgs`).
`usize` values are modelled as `Nat`. -/
structure QspiArgs where
  timeout : Nat
  status : Bool
  id : Bool
  erase : Bool
  bulkerase : Bool
  read : Bool
  addr : Option Nat
  nbytes : Option Nat
  write : Option String
deriving DecidableEq

/-- The structopt validation performed by `QspiArgs::from_iter_safe`:
the declared `conflicts_with_all` pairs (status↮id/erase/read/write,
id↮erase/read/write, erase↮read/write/bulkerase, bulkerase↮read/write,
read↮write) and the declared `requires_all` clauses (erase requires addr;
read requires nbytes and addr).  Note that `write` declares no
`requires_all` and neither `status` nor `id` conflicts with `bulkerase`. -/
def cliOk (a : QspiArgs) : Bool :=
  (!(a.status && a.id)) && (!(a.status && a.erase)) && (!(a.status && a.read))
    && (!(a.status && a.write.isSome))
    && (!(a.id && a.erase)) && (!(a.id && a.read)) && (!(a.id && a.write.isSome))
    && (!(a.erase && a.read)) && (!(a.erase && a.write.isSome))
    && (!(a.erase && a.bulkerase))
    && (!(a.bulkerase && a.read)) && (!(a.bulkerase && a.write.isSome))
    && (!(a.read && a.write.isSome))
    && (!a.erase || a.addr.isSome)
    && (!a.read || (a.nbytes.isSome && a.addr.isSome))

/-- A remote function descriptor from the target's function table:
its opcode id (`HiffyFunction::id`) and arity (`f.args.len()`). -/
structure HFunc where
  id : Nat
  arity : Nat
deriving DecidableEq

/-- The snapshot of the target's function table (`context.functions()`),
modelled as an association list keyed by function name. -/
def Funcs := List (String × HFunc)

/-- `funcs.get(name)` on the function-table map. -/
def lookupFn : List (String × HFunc) → String → Option HFunc
  | [], _ => none
  | (n, f) :: rest, name => if n = name then some f else lookupFn rest name

/-- The local validation errors the `qspi` function can bail with. -/
inductive QspiError where
  /-- `anyhow!("did not find {} function", name)` -/
  | notFound (name : String)
  /-- `bail!("mismatched function signature on {}", name)` -/
  | mismatch (name : String)
  /-- `bail!("invalid byte {}", byte)` -/
  | invalidByte (tok : String)
  /-- `bail!("expected an operation")` -/
  | noOperation
deriving DecidableEq

/-- The `func` closure in `qspi`: look the name up in the function table,
fail with "did not find … function" when absent, fail with "mismatched
function signature on …" when the arity differs from `nargs`, otherwise
return the descriptor. -/
def func (funcs : List (String × HFunc)) (name : String) (nargs : Nat) :
    Except QspiError HFunc :=
  match lookupFn funcs name with
  | none => .error (.notFound name)
  | some f => if f.arity ≠ nargs then .error (.mismatch name) else .ok f

/-- A HIF operation pushed onto `ops`: `Op::Push32`, `Op::Call`, `Op::Done`. -/
inductive Op where
  | push32 (v : Nat)
  | call (id : Nat)
  | done
deriving DecidableEq

/-- Whether an operation is a `Push32`. -/
def isPush : Op → Bool
  | .push32 _ => true
  | _ => false

/-- Whether an operation is the terminator `Done`. -/
def isDone : Op → Bool
  | .done => true
  | _ => false

/-- Rust `str::split(",")` on the character list: every comma separates,
empty fragments are kept, and `n` commas give `n + 1` fragments. -/
def splitCommaList : List Char → List (List Char)
  | [] => [[]]
  | c :: cs =>
    if c = ',' then [] :: splitCommaList cs
    else
      match splitCommaList cs with
      | [] => [[c]]
      | t :: ts => (c :: t) :: ts

/-- `write.split(",")` on a string. -/
def splitComma (s : String) : List String :=
  (splitCommaList s.data).map String.mk

/-- The byte-parsing loop of the write branch: parse each token in order,
collecting the parsed values, and fail with the first token that does not
parse (the argument of `bail!("invalid byte {}", byte)`).  The numeric
parser (`parse_int::parse::<u8>`, an external crate) is a parameter `p`. -/
def parseBytes (p : String → Option Nat) : List String → Except String (List Nat)
  | [] => .ok []
  | t :: ts =>
    match p t with
    | some v =>
      match parseBytes p ts with
      | .ok arr => .ok (v :: arr)
      | .error e => .error e
    | none => .error t

/-- Outcome of the operation-building phase of `qspi` (lines 99–145 before
`ops.push(Op::Done)`): the built operations and optional payload, a local
validation error (`bail!` / `anyhow!`), or a panic from `Option::unwrap`
on a missing value. -/
inductive BuildOutcome where
  | ok (ops : List Op) (data : Option (List Nat))
  | err (e : QspiError)
  | panicked
deriving DecidableEq

/-- The operation builder of `qspi`: the `if`/`else if` chain over the action
flags.  Each branch resolves its function (propagating lookup errors),
pushes its operands (`as u32` casts modelled as `% 2^32`, `unwrap` on a
missing `Option` modelled as `panicked`) and its `Call`, and the write
branch additionally parses the comma-separated byte list and produces the
payload.  No branch taken at all is `bail!("expected an operation")`. -/
def qspiBuild (p : String → Option Nat) (a : QspiArgs)
    (funcs : List (String × HFunc)) : BuildOutcome :=
  if a.status then
    match func funcs "QspiReadStatus" 0 with
    | .error e => .err e
    | .ok f => .ok [.call f.id] none
  else if a.id then
    match func funcs "QspiReadId" 0 with
    | .error e => .err e
    | .ok f => .ok [.call f.id] none
  else if a.erase then
    match func funcs "QspiSectorErase" 1 with
    | .error e => .err e
    | .ok f =>
      match a.addr with
      | none => .panicked
      | some addr => .ok [.push32 (addr % 2^32), .call f.id] none
  else if a.bulkerase then
    match func funcs "QspiBulkErase" 0 with
    | .error e => .err e
    | .ok f => .ok [.call f.id] none
  else if a.read then
    match func funcs "QspiRead" 2 with
    | .error e => .err e
    | .ok f =>
      match a.addr, a.nbytes with
      | some addr, some n =>
          .ok [.push32 (addr % 2^32), .push32 (n % 2^32), .call f.id] none
      | _, _ => .panicked
  else
    match a.write with
    | none => .err .noOperation
    | some w =>
      match func funcs "QspiPageProgram" 2 with
      | .error e => .err e
      | .ok f =>
        match parseBytes p (splitComma w) with
        | .error t => .err (.invalidByte t)
        | .ok arr =>
          match a.addr with
          | none => .panicked
          | some addr =>
              .ok [.push32 (addr % 2^32), .push32 (arr.length % 2^32),
                   .call f.id] (some arr)

/-- Result of the completion-polling loop, recording the list of sleep
durations (in milliseconds) performed between consecutive queries. -/
inductive PollResult where
  | finished (sleeps : List Nat)
  | transportErr (sleeps : List Nat)
  | outOfFuel
deriving DecidableEq

/-- The completion-polling loop of `qspi` (lines 156–162): query
`context.done(core)` (response stream `resp`, indexed by query number);
break on `true`, propagate an error, and otherwise sleep 100 ms before the
next query.  `fuel` bounds the number of queries so the model is total;
`outOfFuel` means the loop has not yet exited within that bound. -/
def pollLoop (resp : Nat → Except Unit Bool) : Nat → Nat → PollResult
  | 0, _ => .outOfFuel
  | fuel + 1, i =>
    match resp i with
    | .error _ => .transportErr []
    | .ok true => .finished []
    | .ok false =>
      match pollLoop resp fuel (i + 1) with
      | .finished s => .finished (100 :: s)
      | .transportErr s => .transportErr (100 :: s)
      | .outOfFuel => .outOfFuel

/-- Outcome of one `qspi` invocation after argument validation: a local
validation error (nothing submitted), a panic (nothing submitted), or a run
that submitted exactly the recorded operations and payload and then polled
for completion. -/
inductive RunOutcome where
  | localErr (e : QspiError)
  | panicked
  | ran (ops : List Op) (data : Option (List Nat)) (poll : PollResult)
deriving DecidableEq

/-- The `qspi` flow after `from_iter_safe` and the function-table snapshot:
build the operations; on a local error or panic nothing is submitted;
otherwise append the single `Op::Done` terminator, submit the sequence and
payload via `context.execute`, and run the completion-polling loop. -/
def qspiRun (p : String → Option Nat) (a : QspiArgs)
    (funcs : List (String × HFunc)) (resp : Nat → Except Unit Bool)
    (fuel : Nat) : RunOutcome :=
  match qspiBuild p a funcs with
  | .err e => .localErr e
  | .panicked => .panicked
  | .ok ops data => .ran (ops ++ [Op.done]) data (pollLoop resp fuel 0)

/-- A sample concrete numeric parser used to instantiate the parser
parameter in witnesses: decimal with surrounding whitespace trimmed,
rejecting values that do not fit in 8 bits. -/
def decDigitsAux : List Char → Nat → Option Nat
  | [], acc => some acc
  | c :: cs, acc =>
    if c.isDigit then decDigitsAux cs (acc * 10 + (c.toNat - 48)) else none

/-- Trim leading and trailing whitespace from a character list. -/
def trimChars (l : List Char) : List Char :=
  ((l.dropWhile Char.isWhitespace).reverse.dropWhile Char.isWhitespace).reverse

/-- Sample instantiation of the `u8` parser for witnesses (see
`decDigitsAux`). -/
def parseU8Dec (s : String) : Option Nat :=
  match trimChars s.data with
  | [] => none
  | c :: cs =>
    match decDigitsAux (c :: cs) 0 with
    | some n => if n < 256 then some n else none
    | none => none

/-- Arguments with every flag clear and every option absent (the structopt
defaults, timeout 5000). -/
def argsNone : QspiArgs :=
  ⟨5000, false, false, false, false, false, none, none, none⟩

/-- A sample function-table snapshot for witnesses. -/
def funcsDemo : List (String × HFunc) :=
  [("QspiReadStatus", ⟨1, 0⟩), ("QspiReadId", ⟨2, 0⟩),
   ("QspiSectorErase", ⟨3, 1⟩), ("QspiBulkErase", ⟨4, 0⟩),
   ("QspiRead", ⟨5, 2⟩), ("QspiPageProgram", ⟨6, 2⟩)]

/-- A completion-response stream that reports done on the first query. -/
def respTrue : Nat → Except Unit Bool := fun _ => .ok true

/-- Behaviour of the polling loop from an arbitrary starting query index:
if the first `n` responses are `ok false` then the loop exits at the
`n`-th response when it is `ok true` (finished) or an error (propagated),
having slept exactly 100 ms between each pair of consecutive queries. -/
theorem pollLoop_run (resp : Nat → Except Unit Bool) :
    ∀ (n i fuel : Nat), (∀ k, k < n → resp (i + k) = .ok false) → n < fuel →
      (resp (i + n) = .ok true →
        pollLoop resp fuel i = .finished (List.replicate n 100)) ∧
      (∀ e, resp (i + n) = .error e →
        pollLoop resp fuel i = .transportErr (List.replicate n 100)) := by
  intro n
  induction n with
  | zero =>
    intro i fuel _ hf
    obtain ⟨m, rfl⟩ : ∃ m, fuel = m + 1 := ⟨fuel - 1, by omega⟩
    constructor
    · intro ht
      rw [Nat.add_zero] at ht
      simp [pollLoop, ht]
    · intro e he
      rw [Nat.add_zero] at he
      simp [pollLoop, he]
  | succ n ih =>
    intro i fuel hk hf
    obtain ⟨m, rfl⟩ : ∃ m, fuel = m + 1 := ⟨fuel - 1, by omega⟩
    have h0 : resp i = .ok false := by
      have := hk 0 (Nat.succ_pos n)
      simpa using this
    have hk' : ∀ k, k < n → resp (i + 1 + k) = .ok false := by
      intro k hkn
      have := hk (k + 1) (by omega)
      have hidx : i + (k + 1) = i + 1 + k := by omega
      rwa [hidx] at this
    have ih' := ih (i + 1) m hk' (by omega)
    have hidx : i + 1 + n = i + (n + 1) := by omega
    constructor
    · intro ht
      have hrec := ih'.1 (by rw [hidx]; exact ht)
      simp [pollLoop, h0, hrec, List.replicate_succ]
    · intro e he
      have hrec := ih'.2 e (by rw [hidx]; exact he)
      simp [pollLoop, h0, hrec, List.replicate_succ]

/-- C7: after submission the completion-polling loop terminates — exiting
to result retrieval when the completion predicate returns true, or
propagating a transport error — for any response stream that eventually
stops answering `ok false`; and between any two consecutive completion
queries it sleeps exactly one fixed 100 ms interval (the recorded sleep
list for `n + 1` queries is `n` sleeps of 100 ms), never re-querying
without the inter-poll delay. -/
theorem C7_poll_terminates (resp : Nat → Except Unit Bool) (n fuel : Nat)
    (hk : ∀ k, k < n → resp k = .ok false) (hf : n < fuel) :
    (resp n = .ok true → pollLoop resp fuel 0 = .finished (List.replicate n 100)) ∧
    (∀ e, resp n = .error e →
      pollLoop resp fuel 0 = .transportErr (List.replicate n 100)) := by
  have h := pollLoop_run resp n 0 fuel (by simpa using hk) hf
  simpa using h

/-- Witness for C7: two pending polls then done, giving two 100 ms sleeps. -/
theorem C7_poll_terminates_witness :
    pollLoop (fun i => if i < 2 then Except.ok false else Except.ok true) 3 0
      = .finished [100, 100] := by
  exact (C7_poll_terminates (fun i => if i < 2 then Except.ok false else Except.ok true)
    2 3 (by intro k hk; interval_cases k <;> decide) (by omega)).1 (by decide)

/-- C8: when no action flag is set and no write list is given, the command
fails with the local `expected an operation` validation error and nothing
is ever built or submitted. -/
theorem C8_no_action_selected (p : String → Option Nat) (a : QspiArgs)
    (funcs : List (String × HFunc)) (resp : Nat → Except Unit Bool) (fuel : Nat)
    (hs : a.status = false) (hi : a.id = false) (he : a.erase = false)
    (hb : a.bulkerase = false) (hr : a.read = false) (hw : a.write = none) :
    qspiRun p a funcs resp fuel = .localErr .noOperation := by
  simp [qspiRun, qspiBuild, hs, hi, he, hb, hr, hw]

/-- Witness for C8: the all-defaults invocation. -/
theorem C8_no_action_selected_witness :
    qspiRun parseU8Dec argsNone funcsDemo respTrue 1 = .localErr .noOperation := by
  exact C8_no_action_selected parseU8Dec argsNone funcsDemo respTrue 1
    rfl rfl rfl rfl rfl rfl

/-- C1: the structopt layer rejects sector-erase without an address and
read without a length, but a write request without an address passes CLI
validation (the `write` flag declares no `requires`) and then panics on
`subargs.addr.unwrap()` instead of failing with a local validation error
— contradicting the claim that a missing required parameter is always
reported and the program never panics. -/
theorem C1_write_without_addr_panics :
    cliOk ⟨5000, false, false, true, false, false, none, none, none⟩ = false ∧
    cliOk ⟨5000, false, false, false, false, true, some 4096, none, none⟩ = false ∧
    cliOk ⟨5000, false, false, false, false, false, none, none, some "1,2,3"⟩ = true ∧
    qspiRun parseU8Dec
      ⟨5000, false, false, false, false, false, none, none, some "1,2,3"⟩
      funcsDemo respTrue 1 = .panicked := by
  decide

/-- C3: the catalog lookup returns the matching descriptor when the name is
present with the expected arity, fails with the name-bearing `not found`
error when absent, fails with the `signature mismatch` error when the
arity differs — and any build-phase error yields a local error outcome,
i.e. no operation sequence is submitted. -/
theorem C3_catalog_lookup (funcs : List (String × HFunc)) (name : String)
    (nargs : Nat) :
    (lookupFn funcs name = none →
      func funcs name nargs = .error (.notFound name)) ∧
    (∀ f, lookupFn funcs name = some f → f.arity ≠ nargs →
      func funcs name nargs = .error (.mismatch name)) ∧
    (∀ f, lookupFn funcs name = some f → f.arity = nargs →
      func funcs name nargs = .ok f) ∧
    (∀ (p : String → Option Nat) (a : QspiArgs) (resp : Nat → Except Unit Bool)
        (fuel : Nat) (e : QspiError),
      qspiBuild p a funcs = .err e → qspiRun p a funcs resp fuel = .localErr e) := by
  refine ⟨?_, ?_, ?_, ?_⟩
  · intro h; simp [func, h]
  · intro f hf hne; simp [func, hf, hne]
  · intro f hf heq; simp [func, hf, heq]
  · intro p a resp fuel e h; simp [qspiRun, h]

/-- Witness for C3: lookups against the sample table, and a missing
`QspiReadStatus` entry yielding a name-bearing local error with nothing
submitted. -/
theorem C3_catalog_lookup_witness :
    func funcsDemo "QspiNope" 0 = .error (.notFound "QspiNope") ∧
    func funcsDemo "QspiRead" 0 = .error (.mismatch "QspiRead") ∧
    func funcsDemo "QspiRead" 2 = .ok ⟨5, 2⟩ ∧
    qspiRun parseU8Dec ⟨5000, true, false, false, false, false, none, none, none⟩
      [] respTrue 1 = .localErr (.notFound "QspiReadStatus") := by
  refine ⟨(C3_catalog_lookup funcsDemo "QspiNope" 0).1 (by decide),
    (C3_catalog_lookup funcsDemo "QspiRead" 0).2.1 ⟨5, 2⟩ (by decide) (by decide),
    (C3_catalog_lookup funcsDemo "QspiRead" 2).2.2.1 ⟨5, 2⟩ (by decide) rfl,
    (C3_catalog_lookup [] "QspiReadStatus" 0).2.2.2 parseU8Dec _ respTrue 1 _
      (by decide)⟩

/-- The byte-parsing loop fails with exactly the first unparseable token:
if every token before `t` parses and `t` does not, the result is
`error t`. -/
theorem parseBytes_first_err (p : String → Option Nat) (t : String)
    (ht : p t = none) :
    ∀ (pre suf : List String), (∀ x ∈ pre, (p x).isSome) →
      parseBytes p (pre ++ t :: suf) = .error t := by
  intro pre
  induction pre with
  | nil => intro suf _; simp [parseBytes, ht]
  | cons x xs ih =>
    intro suf hall
    obtain ⟨v, hv⟩ := Option.isSome_iff_exists.mp (hall x (by simp))
    have hrec := ih suf (fun y hy => hall y (by simp [hy]))
    simp [parseBytes, hv, hrec]

/-- C4: in a write request, the first comma-separated token that fails to
parse as an 8-bit integer fails the whole request with the `invalid byte`
error naming that token, and the outcome is a local error — no operations
or payload are ever submitted. -/
theorem C4_first_invalid_byte (p : String → Option Nat) (a : QspiArgs)
    (funcs : List (String × HFunc)) (resp : Nat → Except Unit Bool) (fuel : Nat)
    (f : HFunc) (w t : String) (pre suf : List String)
    (hs : a.status = false) (hi : a.id = false) (he : a.erase = false)
    (hb : a.bulkerase = false) (hr : a.read = false) (hw : a.write = some w)
    (hf : lookupFn funcs "QspiPageProgram" = some f) (har : f.arity = 2)
    (hsplit : splitComma w = pre ++ t :: suf)
    (hpre : ∀ x ∈ pre, (p x).isSome) (ht : p t = none) :
    qspiRun p a funcs resp fuel = .localErr (.invalidByte t) := by
  have hparse : parseBytes p (splitComma w) = .error t := by
    rw [hsplit]; exact parseBytes_first_err p t ht pre suf hpre
  simp [qspiRun, qspiBuild, hs, hi, he, hb, hr, hw, func, hf, har, hparse]

/-- Witness for C4: the write list `1,zz,3` fails on `zz`. -/
theorem C4_first_invalid_byte_witness :
    qspiRun parseU8Dec
      ⟨5000, false, false, false, false, false, some 8192, none, some "1,zz,3"⟩
      funcsDemo respTrue 1 = .localErr (.invalidByte "zz") := by
  exact C4_first_invalid_byte parseU8Dec _ funcsDemo respTrue 1 ⟨6, 2⟩ "1,zz,3"
    "zz" ["1"] ["3"] rfl rfl rfl rfl rfl rfl (by decide) rfl (by decide)
    (by decide) (by decide)

/-- C2: for a write request whose byte list parses successfully, the second
pushed 32-bit operand is exactly the number of successfully parsed bytes
(whatever the tokens looked like — whitespace or separator noise is the
parser's business, and the count is taken from the parsed array, not from
the input string), and the payload is that parsed array. -/
theorem C2_write_count (p : String → Option Nat) (a : QspiArgs)
    (funcs : List (String × HFunc)) (f : HFunc) (w : String) (addr : Nat)
    (arr : List Nat)
    (hs : a.status = false) (hi : a.id = false) (he : a.erase = false)
    (hb : a.bulkerase = false) (hr : a.read = false) (hw : a.write = some w)
    (ha : a.addr = some addr)
    (hf : lookupFn funcs "QspiPageProgram" = some f) (har : f.arity = 2)
    (hp : parseBytes p (splitComma w) = .ok arr) (hlen : arr.length < 2 ^ 32) :
    qspiBuild p a funcs
      = .ok [.push32 (addr % 2 ^ 32), .push32 arr.length, .call f.id]
          (some arr) := by
  simp only [qspiBuild, hs, hi, he, hb, hr, hw, func, hf, har]
  simp [hp, ha, Nat.mod_eq_of_lt hlen]
  omega

/-- Witness for C2: the list `"1, 2 ,255"` with whitespace around tokens
parses (under the sample trimming parser) to three bytes, and the second
pushed operand is 3. -/
theorem C2_write_count_witness :
    qspiBuild parseU8Dec
      ⟨5000, false, false, false, false, false, some 8192, none, some "1, 2 ,255"⟩
      funcsDemo
      = .ok [.push32 8192, .push32 3, .call 6] (some [1, 2, 255]) := by
  exact C2_write_count parseU8Dec _ funcsDemo ⟨6, 2⟩ "1, 2 ,255" 8192 [1, 2, 255]
    rfl rfl rfl rfl rfl rfl rfl (by decide) rfl (by decide) (by decide)

/-- Any successful build resolves some catalog entry and produces one of
exactly three operation shapes — zero, one or two pushes followed by the
call of the resolved id — with the descriptor's arity equal to the number
of pushes. -/
theorem qspiBuild_ok_shape (p : String → Option Nat) (a : QspiArgs)
    (funcs : List (String × HFunc)) (ops : List Op) (data : Option (List Nat))
    (h : qspiBuild p a funcs = .ok ops data) :
    ∃ name f, lookupFn funcs name = some f ∧
      ((ops = [.call f.id] ∧ f.arity = 0) ∨
       (∃ x, ops = [.push32 x, .call f.id] ∧ f.arity = 1) ∨
       (∃ x y, ops = [.push32 x, .push32 y, .call f.id] ∧ f.arity = 2)) := by
  classical
  by_cases hs : a.status
  · cases hf : lookupFn funcs "QspiReadStatus" with
    | none => simp [qspiBuild, hs, func, hf] at h
    | some f =>
      by_cases har : f.arity = 0
      · simp [qspiBuild, hs, func, hf, har] at h
        exact ⟨"QspiReadStatus", f, hf, Or.inl ⟨h.1.symm, har⟩⟩
      · simp [qspiBuild, hs, func, hf, har] at h
  by_cases hi : a.id
  · cases hf : lookupFn funcs "QspiReadId" with
    | none => simp [qspiBuild, hs, hi, func, hf] at h
    | some f =>
      by_cases har : f.arity = 0
      · simp [qspiBuild, hs, hi, func, hf, har] at h
        exact ⟨"QspiReadId", f, hf, Or.inl ⟨h.1.symm, har⟩⟩
      · simp [qspiBuild, hs, hi, func, hf, har] at h
  by_cases he : a.erase
  · cases hf : lookupFn funcs "QspiSectorErase" with
    | none => simp [qspiBuild, hs, hi, he, func, hf] at h
    | some f =>
      by_cases har : f.arity = 1
      · cases ha : a.addr with
        | none => simp [qspiBuild, hs, hi, he, func, hf, har, ha] at h
        | some addr =>
          simp [qspiBuild, hs, hi, he, func, hf, har, ha] at h
          exact ⟨"QspiSectorErase", f, hf,
            Or.inr (Or.inl ⟨addr % 2 ^ 32, h.1.symm, har⟩)⟩
      · simp [qspiBuild, hs, hi, he, func, hf, har] at h
  by_cases hbk : a.bulkerase
  · cases hf : lookupFn funcs "QspiBulkErase" with
    | none => simp [qspiBuild, hs, hi, he, hbk, func, hf] at h
    | some f =>
      by_cases har : f.arity = 0
      · simp [qspiBuild, hs, hi, he, hbk, func, hf, har] at h
        exact ⟨"QspiBulkErase", f, hf, Or.inl ⟨h.1.symm, har⟩⟩
      · simp [qspiBuild, hs, hi, he, hbk, func, hf, har] at h
  by_cases hr : a.read
  · cases hf : lookupFn funcs "QspiRead" with
    | none => simp [qspiBuild, hs, hi, he, hbk, hr, func, hf] at h
    | some f =>
      by_cases har : f.arity = 2
      · cases ha : a.addr with
        | none => simp [qspiBuild, hs, hi, he, hbk, hr, func, hf, har, ha] at h
        | some addr =>
          cases hn : a.nbytes with
          | none =>
            simp [qspiBuild, hs, hi, he, hbk, hr, func, hf, har, ha, hn] at h
          | some n =>
            simp [qspiBuild, hs, hi, he, hbk, hr, func, hf, har, ha, hn] at h
            exact ⟨"QspiRead", f, hf,
              Or.inr (Or.inr ⟨addr % 2 ^ 32, n % 2 ^ 32, h.1.symm, har⟩)⟩
      · simp [qspiBuild, hs, hi, he, hbk, hr, func, hf, har] at h
  cases hw : a.write with
  | none => simp [qspiBuild, hs, hi, he, hbk, hr, hw] at h
  | some w =>
    cases hf : lookupFn funcs "QspiPageProgram" with
    | none => simp [qspiBuild, hs, hi, he, hbk, hr, hw, func, hf] at h
    | some f =>
      by_cases har : f.arity = 2
      · cases hp : parseBytes p (splitComma w) with
        | error t =>
          simp [qspiBuild, hs, hi, he, hbk, hr, hw, func, hf, har, hp] at h
        | ok arr =>
          cases ha : a.addr with
          | none =>
            simp [qspiBuild, hs, hi, he, hbk, hr, hw, func, hf, har, hp, ha] at h
          | some addr =>
            simp [qspiBuild, hs, hi, he, hbk, hr, hw, func, hf, har, hp, ha] at h
            exact ⟨"QspiPageProgram", f, hf,
              Or.inr (Or.inr ⟨addr % 2 ^ 32, arr.length % 2 ^ 32, h.1.symm, har⟩)⟩
      · simp [qspiBuild, hs, hi, he, hbk, hr, hw, func, hf, har] at h

/-- C5: the operation builder follows the mapping table exactly —
read-status, read-id and bulk-erase push nothing and call an arity-0
function; sector-erase pushes the address and calls with arity 1;
read-range pushes address then length and calls with arity 2; write-bytes
pushes address then byte count and calls with arity 2 with the parsed
bytes as payload — and for every successful build the number of pushed
operands equals the resolved descriptor's declared arity. -/
theorem C5_mapping_table (p : String → Option Nat)
    (funcs : List (String × HFunc)) (a : QspiArgs) :
    (∀ f, a.status = true → lookupFn funcs "QspiReadStatus" = some f →
      f.arity = 0 → qspiBuild p a funcs = .ok [.call f.id] none) ∧
    (∀ f, a.status = false → a.id = true → lookupFn funcs "QspiReadId" = some f →
      f.arity = 0 → qspiBuild p a funcs = .ok [.call f.id] none) ∧
    (∀ f addr, a.status = false → a.id = false → a.erase = true →
      a.addr = some addr → lookupFn funcs "QspiSectorErase" = some f →
      f.arity = 1 →
      qspiBuild p a funcs = .ok [.push32 (addr % 2 ^ 32), .call f.id] none) ∧
    (∀ f, a.status = false → a.id = false → a.erase = false →
      a.bulkerase = true → lookupFn funcs "QspiBulkErase" = some f →
      f.arity = 0 → qspiBuild p a funcs = .ok [.call f.id] none) ∧
    (∀ f addr n, a.status = false → a.id = false → a.erase = false →
      a.bulkerase = false → a.read = true → a.addr = some addr →
      a.nbytes = some n → lookupFn funcs "QspiRead" = some f → f.arity = 2 →
      qspiBuild p a funcs
        = .ok [.push32 (addr % 2 ^ 32), .push32 (n % 2 ^ 32), .call f.id] none) ∧
    (∀ f w addr arr, a.status = false → a.id = false → a.erase = false →
      a.bulkerase = false → a.read = false → a.write = some w →
      a.addr = some addr → lookupFn funcs "QspiPageProgram" = some f →
      f.arity = 2 → parseBytes p (splitComma w) = .ok arr →
      qspiBuild p a funcs
        = .ok [.push32 (addr % 2 ^ 32), .push32 (arr.length % 2 ^ 32),
            .call f.id] (some arr)) ∧
    (∀ ops data, qspiBuild p a funcs = .ok ops data →
      ∃ name f, lookupFn funcs name = some f ∧ Op.call f.id ∈ ops ∧
        ops.countP isPush = f.arity) := by
  refine ⟨?_, ?_, ?_, ?_, ?_, ?_, ?_⟩
  · intro f hs hf har
    simp [qspiBuild, hs, func, hf, har]
  · intro f hs hi hf har
    simp [qspiBuild, hs, hi, func, hf, har]
  · intro f addr hs hi he ha hf har
    simp [qspiBuild, hs, hi, he, ha, func, hf, har]
  · intro f hs hi he hbk hf har
    simp [qspiBuild, hs, hi, he, hbk, func, hf, har]
  · intro f addr n hs hi he hbk hr ha hn hf har
    simp [qspiBuild, hs, hi, he, hbk, hr, ha, hn, func, hf, har]
  · intro f w addr arr hs hi he hbk hr hw ha hf har hp
    simp [qspiBuild, hs, hi, he, hbk, hr, hw, ha, func, hf, har, hp]
  · intro ops data h
    obtain ⟨name, f, hf, hshape⟩ := qspiBuild_ok_shape p a funcs ops data h
    refine ⟨name, f, hf, ?_⟩
    rcases hshape with ⟨rfl, har⟩ | ⟨x, rfl, har⟩ | ⟨x, y, rfl, har⟩ <;>
      simp [isPush, har, List.countP_cons, List.countP_nil]

/-- Witness for C5: the sector-erase and write scenarios from the spec's
end-to-end examples. -/
theorem C5_mapping_table_witness :
    qspiBuild parseU8Dec
      ⟨5000, false, false, true, false, false, some 4096, none, none⟩ funcsDemo
      = .ok [.push32 4096, .call 3] none ∧
    qspiBuild parseU8Dec
      ⟨5000, false, false, false, false, false, some 8192, none, some "1,2,255"⟩
      funcsDemo
      = .ok [.push32 8192, .push32 3, .call 6] (some [1, 2, 255]) := by
  constructor
  · exact (C5_mapping_table parseU8Dec funcsDemo _).2.2.1 ⟨3, 1⟩ 4096
      rfl rfl rfl rfl (by decide) rfl
  · exact (C5_mapping_table parseU8Dec funcsDemo _).2.2.2.2.2.1 ⟨6, 2⟩ "1,2,255"
      8192 [1, 2, 255] rfl rfl rfl rfl rfl rfl rfl (by decide) rfl (by decide)

/-- C6: every run that reaches submission submits a sequence that ends in
the terminator, which is appended last exactly once — the terminator
count over the whole submitted sequence is one. -/
theorem C6_single_terminator (p : String → Option Nat) (a : QspiArgs)
    (funcs : List (String × HFunc)) (resp : Nat → Except Unit Bool) (fuel : Nat)
    (ops : List Op) (data : Option (List Nat)) (poll : PollResult)
    (h : qspiRun p a funcs resp fuel = .ran ops data poll) :
    ops.getLast? = some Op.done ∧ ops.countP isDone = 1 := by
  cases hb : qspiBuild p a funcs with
  | err e => simp [qspiRun, hb] at h
  | panicked => simp [qspiRun, hb] at h
  | ok ops0 data0 =>
    simp only [qspiRun, hb] at h
    injection h with h1 h2 h3
    subst h1
    have hnod : ops0.countP isDone = 0 := by
      obtain ⟨name, f, hf, hshape⟩ := qspiBuild_ok_shape p a funcs ops0 data0 hb
      rcases hshape with ⟨rfl, _⟩ | ⟨x, rfl, _⟩ | ⟨x, y, rfl, _⟩ <;>
        simp [isDone, List.countP_cons, List.countP_nil]
    constructor
    · simp
    · simp [List.countP_append, hnod, isDone, List.countP_cons, List.countP_nil]

/-- Witness for C6: a concrete read-status run. -/
theorem C6_single_terminator_witness :
    ([Op.call 1, Op.done] : List Op).getLast? = some Op.done ∧
    ([Op.call 1, Op.done] : List Op).countP isDone = 1 := by
  exact C6_single_terminator parseU8Dec
    ⟨5000, true, false, false, false, false, none, none, none⟩ funcsDemo respTrue 1
    [Op.call 1, Op.done] none (.finished []) (by decide)

/-- C9: caller-supplied address and length values are pushed reduced modulo
2^32 (the `as u32` casts), for every natural value and with no range
validation — an out-of-range value is silently truncated, never
rejected. -/
theorem C9_cast_modulo (p : String → Option Nat) (funcs : List (String × HFunc))
    (a : QspiArgs) :
    (∀ f addr, a.status = false → a.id = false → a.erase = true →
      a.addr = some addr → lookupFn funcs "QspiSectorErase" = some f →
      f.arity = 1 →
      qspiBuild p a funcs = .ok [.push32 (addr % 2 ^ 32), .call f.id] none) ∧
    (∀ f addr n, a.status = false → a.id = false → a.erase = false →
      a.bulkerase = false → a.read = true → a.addr = some addr →
      a.nbytes = some n → lookupFn funcs "QspiRead" = some f → f.arity = 2 →
      qspiBuild p a funcs
        = .ok [.push32 (addr % 2 ^ 32), .push32 (n % 2 ^ 32), .call f.id] none) ∧
    (∀ f w addr arr, a.status = false → a.id = false → a.erase = false →
      a.bulkerase = false → a.read = false → a.write = some w →
      a.addr = some addr → lookupFn funcs "QspiPageProgram" = some f →
      f.arity = 2 → parseBytes p (splitComma w) = .ok arr →
      qspiBuild p a funcs
        = .ok [.push32 (addr % 2 ^ 32), .push32 (arr.length % 2 ^ 32),
            .call f.id] (some arr)) := by
  refine ⟨?_, ?_, ?_⟩
  · intro f addr hs hi he ha hf har
    simp [qspiBuild, hs, hi, he, ha, func, hf, har]
  · intro f addr n hs hi he hbk hr ha hn hf har
    simp [qspiBuild, hs, hi, he, hbk, hr, ha, hn, func, hf, har]
  · intro f w addr arr hs hi he hbk hr hw ha hf har hp
    simp [qspiBuild, hs, hi, he, hbk, hr, hw, ha, func, hf, har, hp]

/-- Witness for C9: a sector-erase address of 2^32 + 4096 is accepted and
silently truncated to 4096. -/
theorem C9_cast_modulo_witness :
    qspiBuild parseU8Dec
      ⟨5000, false, false, true, false, false, some (2 ^ 32 + 4096), none, none⟩
      funcsDemo = .ok [.push32 4096, .call 3] none := by
  exact (C9_cast_modulo parseU8Dec funcsDemo
      ⟨5000, false, false, true, false, false, some (2 ^ 32 + 4096), none, none⟩).1
    ⟨3, 1⟩ (2 ^ 32 + 4096) rfl rfl rfl rfl (by decide) rfl

/-- C10: the CLI conflict declarations let status+bulk-erase and
id+bulk-erase coexist, and the builder's if/else chain resolves any such
surviving combination by the fixed precedence status, id, sector-erase,
bulk-erase, read, write: whenever a flag is the first one set, the build
equals the build of the request carrying that action alone, so the extra
flags are silently ignored and at most one operation sequence is ever
produced. -/
theorem C10_action_precedence (p : String → Option Nat)
    (funcs : List (String × HFunc)) :
    cliOk ⟨5000, true, false, false, true, false, none, none, none⟩ = true ∧
    cliOk ⟨5000, false, true, false, true, false, none, none, none⟩ = true ∧
    (∀ a : QspiArgs, a.status = true →
      qspiBuild p a funcs
        = qspiBuild p ⟨a.timeout, true, false, false, false, false,
            none, none, none⟩ funcs) ∧
    (∀ a : QspiArgs, a.status = false → a.id = true →
      qspiBuild p a funcs
        = qspiBuild p ⟨a.timeout, false, true, false, false, false,
            none, none, none⟩ funcs) ∧
    (∀ a : QspiArgs, a.status = false → a.id = false → a.erase = true →
      qspiBuild p a funcs
        = qspiBuild p ⟨a.timeout, false, false, true, false, false,
            a.addr, none, none⟩ funcs) ∧
    (∀ a : QspiArgs, a.status = false → a.id = false → a.erase = false →
      a.bulkerase = true →
      qspiBuild p a funcs
        = qspiBuild p ⟨a.timeout, false, false, false, true, false,
            none, none, none⟩ funcs) ∧
    (∀ a : QspiArgs, a.status = false → a.id = false → a.erase = false →
      a.bulkerase = false → a.read = true →
      qspiBuild p a funcs
        = qspiBuild p ⟨a.timeout, false, false, false, false, true,
            a.addr, a.nbytes, none⟩ funcs) ∧
    (∀ a : QspiArgs, a.status = false → a.id = false → a.erase = false →
      a.bulkerase = false → a.read = false →
      qspiBuild p a funcs
        = qspiBuild p ⟨a.timeout, false, false, false, false, false,
            a.addr, none, a.write⟩ funcs) := by
  refine ⟨by decide, by decide, ?_, ?_, ?_, ?_, ?_, ?_⟩
  · intro a hs
    simp [qspiBuild, hs]
  · intro a hs hi
    simp [qspiBuild, hs, hi]
  · intro a hs hi he
    simp [qspiBuild, hs, hi, he]
  · intro a hs hi he hbk
    simp [qspiBuild, hs, hi, he, hbk]
  · intro a hs hi he hbk hr
    simp [qspiBuild, hs, hi, he, hbk, hr]
  · intro a hs hi he hbk hr
    simp [qspiBuild, hs, hi, he, hbk, hr]

/-- Witness for C10: status together with bulk-erase survives CLI
validation and builds exactly the status-only sequence. -/
theorem C10_action_precedence_witness :
    cliOk ⟨5000, true, false, false, true, false, none, none, none⟩ = true ∧
    qspiBuild parseU8Dec ⟨5000, true, false, false, true, false, none, none, none⟩
        funcsDemo
      = qspiBuild parseU8Dec
          ⟨5000, true, false, false, false, false, none, none, none⟩ funcsDemo := by
  exact ⟨(C10_action_precedence parseU8Dec funcsDemo).1,
    (C10_action_precedence parseU8Dec funcsDemo).2.2.1 _ rfl⟩

end Qspi
